import Mathlib

/-
Shallow embedding and verification of the arena allocator in
src/my_malloc.h (melven/my_malloc).

Modelling conventions:
* The three global arrays `MEMORY_BUFFER`, `MEMORY_USED`, `MEMORY_IS_POINTER`
  (each of length `MAX_MEMORY`) become the three list fields of `Arena`.
  The arena capacity is the length of `memory_used` (the C code fixes all
  three at the build-time constant `MAX_MEMORY`, default 450; the constant
  is kept configurable here exactly as `#ifndef MAX_MEMORY` allows).
* `double` slot values are never computed on by the allocator, only stored,
  copied and printed, so they are modelled by `Int` stand-ins; the `%5.2g`
  binary64 formatting of `print_memory_value` is abstracted as the decimal
  rendering of the modelled value.
* Calls to `rand()` become explicit `Nat` arguments (`my_malloc` consumes
  one random number for its scan start; `init_my_malloc` consumes one
  random value per slot).
* Pointers into the buffer are represented by their slot index
  (`&MEMORY_BUFFER[a]` becomes `a`), so `my_malloc` hands back
  `start_address + 1` and `my_free`/`set_print_as_pointer` receive that
  index directly; the C pointer-difference arithmetic is the identity on
  this representation.
* Both unbounded loops of the C code (the placement scan of `my_malloc` and
  the forward walk of `my_free`) strictly increase their counter, which the
  loop guard bounds by the capacity, so they are embedded with an explicit
  fuel parameter; the top-level functions pass fuel equal to the capacity,
  and the termination theorem for C8 proves this fuel is never exhausted.
* `exit(1)` on the out-of-memory path becomes the `none` component of the
  result together with the (unchanged) arena.
-/

namespace MyMalloc

/-- Arena state: the three parallel global arrays of my_malloc.h. -/
structure Arena where
  memory_used : List Bool
  memory_is_pointer : List Bool
  memory_buffer : List Int
deriving DecidableEq, Repr

/-- Arena capacity: the C build-time constant MAX_MEMORY (the common length
of the three global arrays), recovered as the length of the used-flags
array. -/
def cap (s : Arena) : Nat := s.memory_used.length

/-- Read MEMORY_USED[i]; out-of-range reads default to false (every read the
modelled code performs is bounds-guarded first). -/
def usedAt (s : Arena) (i : Nat) : Bool := s.memory_used.getD i false

/-- Read MEMORY_IS_POINTER[i]; out-of-range reads default to false. -/
def isPointerAt (s : Arena) (i : Nat) : Bool := s.memory_is_pointer.getD i false

/-- Default arena capacity from the C header: MAX_MEMORY = 450. -/
def MAX_MEMORY : Nat := 450

/-- Wellformedness carried implicitly by the C globals: all three arrays
have the same length MAX_MEMORY. -/
def Arena.WF (s : Arena) : Prop :=
  s.memory_is_pointer.length = s.memory_used.length ∧
  s.memory_buffer.length = s.memory_used.length

instance (s : Arena) : Decidable s.WF := by
  unfold Arena.WF; infer_instance

/-- Embedding of init_my_malloc: clears every used flag and fills every
buffer slot with a fresh pseudo-random value (the srand/double_rand stream
is abstracted as the argument function); MEMORY_IS_POINTER is not touched,
exactly as in the C code. -/
def init_my_malloc (s : Arena) (randVals : Nat → Int) : Arena :=
  { memory_used := List.replicate (cap s) false
    memory_is_pointer := s.memory_is_pointer
    memory_buffer := (List.range (cap s)).map randVals }

/-- Embedding of the inner window scan of my_malloc
(`for(long i = 0; i < n+2; i++) ...`): starting at trial index i with rem
iterations left (initial call: i = 0, rem = n+2), returns `some i` for the
first i whose slot start+i is out of bounds or used (the C code then jumps
the offset by i+1), and `none` when the whole window is in-bounds and
free. -/
def findBlocked (s : Arena) (start : Nat) : Nat → Nat → Option Nat
  | _, 0 => none
  | i, rem + 1 =>
    if cap s ≤ start + i ∨ usedAt s (start + i) = true then some i
    else findBlocked s start (i + 1) rem

/-- Embedding of the success branch of my_malloc
(`for(int i = 1; i < n+1; i++) ...`), unrolled as a recursion that marks k
consecutive slots starting at a: sets MEMORY_USED to true and
MEMORY_IS_POINTER to false for each of them. The initial call is
`markRange s (start_address + 1) n`. -/
def markRange (s : Arena) (a : Nat) : Nat → Arena
  | 0 => s
  | k + 1 =>
    markRange
      { s with
        memory_used := s.memory_used.set a true
        memory_is_pointer := s.memory_is_pointer.set a false }
      (a + 1) k

/-- Embedding of the placement-search loop of my_malloc
(`while(offset < MAX_MEMORY) ...`) with explicit fuel (one unit per
iteration; the loop guard and the strict growth of offset bound the
iteration count by the capacity, so my_malloc passes fuel = cap s and never
exhausts it, see the C8 theorem). Result: `none` means fuel ran out,
`some (none, s)` is the out-of-memory exit, `some (some h, s2)` is a
successful allocation returning handle h (the index start_address + 1) and
the updated arena. -/
def searchLoop (s : Arena) (searchStart n : Nat) : Nat → Nat → Option (Option Nat × Arena)
  | 0, offset => if offset < cap s then none else some (none, s)
  | fuel + 1, offset =>
    if offset < cap s then
      let start := (searchStart + offset) % cap s
      if usedAt s start = true then searchLoop s searchStart n fuel (offset + 1)
      else
        match findBlocked s start 0 (n + 2) with
        | some i => searchLoop s searchStart n fuel (offset + i + 1)
        | none => some (some (start + 1), markRange s (start + 1) n)
    else some (none, s)

/-- Embedding of my_malloc: converts the byte count to a slot count
`n = (nbytes - 1) / 8 + 1`, draws a random scan start
`rand % MAX_MEMORY`, and runs the placement search. Returns
(some handle, new arena) on success and (none, unchanged arena) on the
out-of-memory path (where the C code prints and calls exit(1)). -/
def my_malloc (s : Arena) (rand : Nat) (nbytes : Nat) : Option Nat × Arena :=
  let n := (nbytes - 1) / 8 + 1
  let searchStart := rand % cap s
  match searchLoop s searchStart n (cap s) 0 with
  | some r => r
  | none => (none, s)

/-- Embedding of set_print_as_pointer: sets MEMORY_IS_POINTER[offset + i]
to true for i = 0 .. n-1, with no check of the used flags, exactly as in
the C code (`for(int i = 0; i < n; i++) MEMORY_IS_POINTER[offset+i] = true`,
unrolled as a recursion on the remaining count). -/
def set_print_as_pointer (s : Arena) (offset : Nat) : Nat → Arena
  | 0 => s
  | k + 1 =>
    set_print_as_pointer
      { s with memory_is_pointer := s.memory_is_pointer.set offset true }
      (offset + 1) k

/-- Embedding of the loop of my_free
(`while(address < MAX_MEMORY && MEMORY_USED[address]) ...`) with explicit
fuel (the address strictly increases and is bounded by the capacity, so
my_free passes fuel = cap s, which always suffices). -/
def freeLoop (s : Arena) : Nat → Nat → Arena
  | 0, _ => s
  | fuel + 1, address =>
    if address < cap s ∧ usedAt s address = true then
      freeLoop { s with memory_used := s.memory_used.set address false } fuel (address + 1)
    else s

/-- Embedding of my_free: the handle is already the slot index (the C code
recovers it as a pointer difference), and the forward walk clears used
flags until the first free slot or the arena boundary. -/
def my_free (s : Arena) (address : Nat) : Arena := freeLoop s (cap s) address

/-- Length of the contiguous run of used slots starting at address a
(bounded by the arena capacity): the number of slots my_free's walk visits.
This is a specification-side measure of the state, used to characterize
my_free; it is not part of the C code, which never stores lengths. -/
def usedRunLen (s : Arena) : Nat → Nat → Nat
  | 0, _ => 0
  | fuel + 1, address =>
    if address < cap s ∧ usedAt s address = true then
      usedRunLen s fuel (address + 1) + 1
    else 0

/-- Right-justify a string in a field of width w (the %6d / %5ld / %5.2g
field widths of the printing code). -/
def padLeft (t : String) (w : Nat) : String :=
  String.mk (List.replicate (w - t.length) ' ') ++ t

/-- One cell of print_memory_used: the row header every 25 columns, then
`.` for a free slot, `p` for used and pointer-tagged, `x` for used and
plain. -/
def usedCell (s : Arena) (i : Nat) : String :=
  (if i % 25 = 0 then "\n" ++ padLeft (toString i) 6 ++ ": " else "") ++
  (if usedAt s i = true then
    (if isPointerAt s i = true then "p" else "x")
   else ".")

/-- Embedding of print_memory_used as an explicit state-passing function:
the produced stdout text together with the arena after the call (the C
function only reads the globals). -/
def print_memory_used (s : Arena) : String × Arena :=
  ("Current memory usage:" ++ String.join ((List.range (cap s)).map (usedCell s)) ++ "\n", s)

/-- One cell of print_memory_value: the row header every 25 columns; a
blank field for a free slot; for a used slot the stored value in a
5-wide field (for a pointer-tagged slot the C code prints the stored
pointer minus the buffer base with %5ld, which on the index representation
is the stored value itself; for a plain slot it prints the double with
%5.2g, abstracted here as the decimal rendering of the modelled value). -/
def valueCell (s : Arena) (i : Nat) : String :=
  (if i % 25 = 0 then "\n" ++ padLeft (toString i) 6 ++ ":" else "") ++
  (if usedAt s i = true then
    " " ++ padLeft (toString (s.memory_buffer.getD i 0)) 5
   else "      ")

/-- Embedding of print_memory_value as an explicit state-passing function:
the produced stdout text together with the arena after the call. -/
def print_memory_value (s : Arena) : String × Arena :=
  ("Current memory values:" ++ String.join ((List.range (cap s)).map (valueCell s)) ++ "\n", s)

/-! Basic lemmas about the state accessors. -/

theorem getD_set {α : Type} (l : List α) (a j : Nat) (b d : α) :
    (l.set a b).getD j d = if j = a ∧ a < l.length then b else l.getD j d := by
  simp only [List.getD_eq_getElem?_getD, List.getElem?_set]
  by_cases h : a = j
  · subst h
    by_cases hl : a < l.length
    · simp [hl]
    · simp [hl, List.getElem?_eq_none (Nat.le_of_not_lt hl)]
  · rw [if_neg h, if_neg (fun hh => h hh.1.symm)]

theorem getD_oob {α : Type} (l : List α) (j : Nat) (d : α) (h : l.length ≤ j) :
    l.getD j d = d := by
  simp [List.getD_eq_getElem?_getD, List.getElem?_eq_none h]

theorem usedAt_oob {s : Arena} {j : Nat} (h : cap s ≤ j) : usedAt s j = false :=
  getD_oob _ _ _ h

theorem isPointerAt_oob {s : Arena} {j : Nat} (h : s.memory_is_pointer.length ≤ j) :
    isPointerAt s j = false :=
  getD_oob _ _ _ h

/-! Characterization of the window scan. -/

theorem findBlocked_none_iff (s : Arena) (start : Nat) (rem i : Nat) :
    findBlocked s start i rem = none ↔
      ∀ k, k < rem → start + i + k < cap s ∧ usedAt s (start + i + k) = false := by
  induction rem generalizing i with
  | zero => simp [findBlocked]
  | succ rem ih =>
    rw [findBlocked]
    by_cases h : cap s ≤ start + i ∨ usedAt s (start + i) = true
    · rw [if_pos h]
      constructor
      · intro hc; exact absurd hc (by simp)
      · intro hall
        have h0 := hall 0 (Nat.succ_pos rem)
        rw [Nat.add_zero] at h0
        rcases h with h | h
        · omega
        · simp [h0.2] at h
    · rw [if_neg h]
      push_neg at h
      obtain ⟨h1, h2⟩ := h
      rw [ih (i + 1)]
      constructor
      · intro hk k hkrem
        cases k with
        | zero =>
          refine ⟨by omega, ?_⟩
          rw [Nat.add_zero]
          exact Bool.not_eq_true _ ▸ h2
        | succ k2 =>
          have hh := hk k2 (by omega)
          have e : start + (i + 1) + k2 = start + i + (k2 + 1) := by omega
          rw [e] at hh
          exact hh
      · intro hk k hkrem
        have hh := hk (k + 1) (by omega)
        have e : start + i + (k + 1) = start + (i + 1) + k := by omega
        rw [e] at hh
        exact hh

theorem findBlocked_none_iff0 (s : Arena) (start w : Nat) :
    findBlocked s start 0 w = none ↔
      ∀ k, k < w → start + k < cap s ∧ usedAt s (start + k) = false := by
  rw [findBlocked_none_iff]
  constructor
  · intro hk k hw
    have := hk k hw
    rwa [Nat.add_zero] at this
  · intro hk k hw
    rw [Nat.add_zero]
    exact hk k hw

/-! Lemmas about the marking loop of the success branch. -/

theorem markRange_buffer (k : Nat) : ∀ (s : Arena) (a : Nat),
    (markRange s a k).memory_buffer = s.memory_buffer := by
  induction k with
  | zero => intro s a; rfl
  | succ k ih => intro s a; rw [markRange]; exact ih _ _

theorem markRange_used_length (k : Nat) : ∀ (s : Arena) (a : Nat),
    (markRange s a k).memory_used.length = s.memory_used.length := by
  induction k with
  | zero => intro s a; rfl
  | succ k ih =>
    intro s a
    rw [markRange, ih]
    exact List.length_set _ _ _

theorem markRange_ip_length (k : Nat) : ∀ (s : Arena) (a : Nat),
    (markRange s a k).memory_is_pointer.length = s.memory_is_pointer.length := by
  induction k with
  | zero => intro s a; rfl
  | succ k ih =>
    intro s a
    rw [markRange, ih]
    exact List.length_set _ _ _

theorem markRange_cap (k : Nat) (s : Arena) (a : Nat) :
    cap (markRange s a k) = cap s :=
  markRange_used_length k s a

theorem markRange_usedAt (k : Nat) : ∀ (s : Arena) (a j : Nat),
    usedAt (markRange s a k) j =
      if a ≤ j ∧ j < a + k ∧ j < cap s then true else usedAt s j := by
  induction k with
  | zero =>
    intro s a j
    rw [markRange, if_neg (by omega)]
  | succ k ih =>
    intro s a j
    rw [markRange, ih]
    have hcap : cap { s with
        memory_used := s.memory_used.set a true
        memory_is_pointer := s.memory_is_pointer.set a false } = cap s := by
      simp [cap]
    have hu : usedAt { s with
        memory_used := s.memory_used.set a true
        memory_is_pointer := s.memory_is_pointer.set a false } j =
        if j = a ∧ a < cap s then true else usedAt s j :=
      getD_set _ _ _ _ _
    rw [hcap, hu]
    split_ifs <;> first | rfl | omega

theorem markRange_isPointerAt (k : Nat) : ∀ (s : Arena) (a j : Nat),
    isPointerAt (markRange s a k) j =
      if a ≤ j ∧ j < a + k ∧ j < s.memory_is_pointer.length then false
      else isPointerAt s j := by
  induction k with
  | zero =>
    intro s a j
    rw [markRange, if_neg (by omega)]
  | succ k ih =>
    intro s a j
    rw [markRange, ih]
    have hlen : ({ s with
        memory_used := s.memory_used.set a true
        memory_is_pointer := s.memory_is_pointer.set a false } :
        Arena).memory_is_pointer.length = s.memory_is_pointer.length :=
      List.length_set _ _ _
    have hp : isPointerAt { s with
        memory_used := s.memory_used.set a true
        memory_is_pointer := s.memory_is_pointer.set a false } j =
        if j = a ∧ a < s.memory_is_pointer.length then false else isPointerAt s j :=
      getD_set _ _ _ _ _
    rw [hlen, hp]
    split_ifs <;> first | rfl | omega

/-! Lemmas about the placement-search loop. -/

theorem searchLoop_success (s : Arena) (ss n : Nat) :
    ∀ (fuel offset h : Nat) (s2 : Arena),
      searchLoop s ss n fuel offset = some (some h, s2) →
      ∃ start, start < cap s ∧ usedAt s start = false ∧
        findBlocked s start 0 (n + 2) = none ∧
        h = start + 1 ∧ s2 = markRange s (start + 1) n := by
  intro fuel
  induction fuel with
  | zero =>
    intro offset h s2 hc
    rw [searchLoop] at hc
    split at hc
    · exact absurd hc (by simp)
    · exact absurd hc (by simp)
  | succ fuel ih =>
    intro offset h s2 hc
    rw [searchLoop] at hc
    by_cases hoff : offset < cap s
    · rw [if_pos hoff] at hc
      by_cases hu : usedAt s ((ss + offset) % cap s) = true
      · rw [if_pos hu] at hc
        exact ih _ _ _ hc
      · rw [if_neg hu] at hc
        rcases hfb : findBlocked s ((ss + offset) % cap s) 0 (n + 2) with _ | i
        · rw [hfb] at hc
          injection hc with hc1
          injection hc1 with hc2 hc3
          injection hc2 with hc4
          exact ⟨(ss + offset) % cap s, Nat.mod_lt _ (by omega),
            Bool.not_eq_true _ ▸ hu, hfb, hc4.symm, hc3.symm⟩
        · rw [hfb] at hc
          exact ih _ _ _ hc
    · rw [if_neg hoff] at hc
      exact absurd hc (by simp)

theorem searchLoop_none (s : Arena) (ss n : Nat) :
    ∀ (fuel offset : Nat) (s2 : Arena),
      searchLoop s ss n fuel offset = some (none, s2) → s2 = s := by
  intro fuel
  induction fuel with
  | zero =>
    intro offset s2 hc
    rw [searchLoop] at hc
    split at hc
    · exact absurd hc (by simp)
    · injection hc with hc1
      injection hc1 with hc2 hc3
      exact hc3.symm
  | succ fuel ih =>
    intro offset s2 hc
    rw [searchLoop] at hc
    by_cases hoff : offset < cap s
    · rw [if_pos hoff] at hc
      by_cases hu : usedAt s ((ss + offset) % cap s) = true
      · rw [if_pos hu] at hc
        exact ih _ _ hc
      · rw [if_neg hu] at hc
        rcases hfb : findBlocked s ((ss + offset) % cap s) 0 (n + 2) with _ | i
        · rw [hfb] at hc
          exact absurd hc (by simp)
        · rw [hfb] at hc
          exact ih _ _ hc
    · rw [if_neg hoff] at hc
      injection hc with hc1
      injection hc1 with hc2 hc3
      exact hc3.symm

theorem searchLoop_isSome (s : Arena) (ss n : Nat) :
    ∀ (fuel offset : Nat), cap s - offset ≤ fuel →
      (searchLoop s ss n fuel offset).isSome = true := by
  intro fuel
  induction fuel with
  | zero =>
    intro offset hf
    rw [searchLoop, if_neg (by omega)]
    rfl
  | succ fuel ih =>
    intro offset hf
    rw [searchLoop]
    by_cases hoff : offset < cap s
    · rw [if_pos hoff]
      by_cases hu : usedAt s ((ss + offset) % cap s) = true
      · rw [if_pos hu]
        exact ih (offset + 1) (by omega)
      · rw [if_neg hu]
        rcases hfb : findBlocked s ((ss + offset) % cap s) 0 (n + 2) with _ | i
        · rfl
        · exact ih (offset + i + 1) (by omega)
    · rw [if_neg hoff]
      rfl

theorem my_malloc_eq_searchLoop (s : Arena) (r nbytes : Nat) :
    searchLoop s (r % cap s) ((nbytes - 1) / 8 + 1) (cap s) 0 =
      some (my_malloc s r nbytes) := by
  have h := searchLoop_isSome s (r % cap s) ((nbytes - 1) / 8 + 1) (cap s) 0 (by omega)
  rcases hc : searchLoop s (r % cap s) ((nbytes - 1) / 8 + 1) (cap s) 0 with _ | r2
  · rw [hc] at h
    exact absurd h (by simp)
  · simp only [my_malloc]
    rw [hc]

theorem my_malloc_success (s : Arena) (r nbytes h : Nat) (s2 : Arena)
    (hc : my_malloc s r nbytes = (some h, s2)) :
    ∃ start, start < cap s ∧ usedAt s start = false ∧
      findBlocked s start 0 ((nbytes - 1) / 8 + 1 + 2) = none ∧
      h = start + 1 ∧ s2 = markRange s (start + 1) ((nbytes - 1) / 8 + 1) := by
  have he := my_malloc_eq_searchLoop s r nbytes
  rw [hc] at he
  exact searchLoop_success s (r % cap s) ((nbytes - 1) / 8 + 1) (cap s) 0 h s2 he

theorem my_malloc_failure (s : Arena) (r nbytes : Nat) (s2 : Arena)
    (hc : my_malloc s r nbytes = (none, s2)) : s2 = s := by
  have he := my_malloc_eq_searchLoop s r nbytes
  rw [hc] at he
  exact searchLoop_none s (r % cap s) ((nbytes - 1) / 8 + 1) (cap s) 0 s2 he

/-! Lemmas about the free loop. -/

theorem freeLoop_ip (fuel : Nat) : ∀ (s : Arena) (a : Nat),
    (freeLoop s fuel a).memory_is_pointer = s.memory_is_pointer := by
  induction fuel with
  | zero => intro s a; rfl
  | succ fuel ih =>
    intro s a
    rw [freeLoop]
    split
    · exact ih _ _
    · rfl

theorem freeLoop_buffer (fuel : Nat) : ∀ (s : Arena) (a : Nat),
    (freeLoop s fuel a).memory_buffer = s.memory_buffer := by
  induction fuel with
  | zero => intro s a; rfl
  | succ fuel ih =>
    intro s a
    rw [freeLoop]
    split
    · exact ih _ _
    · rfl

theorem freeLoop_length (fuel : Nat) : ∀ (s : Arena) (a : Nat),
    (freeLoop s fuel a).memory_used.length = s.memory_used.length := by
  induction fuel with
  | zero => intro s a; rfl
  | succ fuel ih =>
    intro s a
    rw [freeLoop]
    split
    · rw [ih]
      exact List.length_set _ _ _
    · rfl

theorem freeLoop_spec (k : Nat) : ∀ (s : Arena) (a fuel : Nat), k ≤ fuel →
    (∀ i, i < k → a + i < cap s ∧ usedAt s (a + i) = true) →
    (cap s ≤ a + k ∨ usedAt s (a + k) = false) →
    ∀ j, usedAt (freeLoop s fuel a) j =
      if a ≤ j ∧ j < a + k then false else usedAt s j := by
  induction k with
  | zero =>
    intro s a fuel hfuel hrun hstop j
    rw [if_neg (by omega)]
    have hcond : ¬(a < cap s ∧ usedAt s a = true) := by
      rcases hstop with h | h
      · intro hh; omega
      · intro hh
        rw [Nat.add_zero] at h
        simp [h] at hh
    cases fuel with
    | zero => rfl
    | succ fuel =>
      rw [freeLoop, if_neg hcond]
  | succ k ih =>
    intro s a fuel hfuel hrun hstop j
    have h0 := hrun 0 (by omega)
    rw [Nat.add_zero] at h0
    cases fuel with
    | zero => omega
    | succ fuel =>
      rw [freeLoop, if_pos h0]
      have hlen : cap { s with memory_used := s.memory_used.set a false } = cap s := by
        simp [cap]
      have hset : ∀ m, usedAt { s with memory_used := s.memory_used.set a false } m =
          if m = a ∧ a < cap s then false else usedAt s m := fun m => getD_set _ _ _ _ _
      have hrec := ih { s with memory_used := s.memory_used.set a false } (a + 1) fuel
        (by omega)
        (by
          intro i hi
          have hh := hrun (i + 1) (by omega)
          have e : a + (i + 1) = a + 1 + i := by omega
          rw [e] at hh
          refine ⟨by rw [hlen]; exact hh.1, ?_⟩
          rw [hset, if_neg (by omega)]
          exact hh.2)
        (by
          rw [hlen, hset, if_neg (by omega)]
          have e : a + (k + 1) = a + 1 + k := by omega
          rw [e] at hstop
          exact hstop)
        j
      rw [hrec, hset]
      split_ifs <;> first | rfl | omega

/-! Lemmas about the used-run measure. -/

theorem usedRunLen_le (fuel : Nat) : ∀ (s : Arena) (a : Nat),
    usedRunLen s fuel a ≤ fuel := by
  induction fuel with
  | zero => intro s a; rw [usedRunLen]
  | succ fuel ih =>
    intro s a
    rw [usedRunLen]
    split
    · have := ih s (a + 1)
      omega
    · omega

theorem usedRunLen_run (fuel : Nat) : ∀ (s : Arena) (a : Nat),
    ∀ i, i < usedRunLen s fuel a → a + i < cap s ∧ usedAt s (a + i) = true := by
  induction fuel with
  | zero =>
    intro s a i hi
    rw [usedRunLen] at hi
    omega
  | succ fuel ih =>
    intro s a i hi
    rw [usedRunLen] at hi
    split at hi
    · rename_i hcond
      cases i with
      | zero =>
        rw [Nat.add_zero]
        exact hcond
      | succ i2 =>
        have hh := ih s (a + 1) i2 (by omega)
        have e : a + (i2 + 1) = a + 1 + i2 := by omega
        rw [e]
        exact hh
    · omega

theorem usedRunLen_stop (fuel : Nat) : ∀ (s : Arena) (a : Nat), cap s - a ≤ fuel →
    cap s ≤ a + usedRunLen s fuel a ∨
      usedAt s (a + usedRunLen s fuel a) = false := by
  induction fuel with
  | zero =>
    intro s a hf
    rw [usedRunLen]
    omega
  | succ fuel ih =>
    intro s a hf
    rw [usedRunLen]
    split
    · rename_i hcond
      have hh := ih s (a + 1) (by omega)
      have e : a + (usedRunLen s fuel (a + 1) + 1) = a + 1 + usedRunLen s fuel (a + 1) := by
        omega
      rw [e]
      exact hh
    · rename_i hcond
      rw [Nat.add_zero]
      rcases Nat.lt_or_ge a (cap s) with h | h
      · right
        by_contra hu
        exact hcond ⟨h, by simpa using hu⟩
      · left
        omega

theorem usedRunLen_eq (k : Nat) : ∀ (s : Arena) (a fuel : Nat),
    (∀ i, i < k → a + i < cap s ∧ usedAt s (a + i) = true) →
    (cap s ≤ a + k ∨ usedAt s (a + k) = false) →
    usedRunLen s fuel a = k ∨ fuel < k := by
  induction k with
  | zero =>
    intro s a fuel hrun hstop
    left
    have hcond : ¬(a < cap s ∧ usedAt s a = true) := by
      rcases hstop with h | h
      · intro hh; omega
      · intro hh
        rw [Nat.add_zero] at h
        simp [h] at hh
    cases fuel with
    | zero => rfl
    | succ fuel => rw [usedRunLen, if_neg hcond]
  | succ k ih =>
    intro s a fuel hrun hstop
    have h0 := hrun 0 (by omega)
    rw [Nat.add_zero] at h0
    cases fuel with
    | zero => right; omega
    | succ fuel =>
      rw [usedRunLen, if_pos h0]
      have hh := ih s (a + 1) fuel
        (by
          intro i hi
          have := hrun (i + 1) (by omega)
          have e : a + (i + 1) = a + 1 + i := by omega
          rwa [e] at this)
        (by
          have e : a + (k + 1) = a + 1 + k := by omega
          rwa [e] at hstop)
      rcases hh with hh | hh
      · left; omega
      · right; omega

/-! Characterization of my_free. -/

theorem my_free_ip (s : Arena) (a : Nat) :
    (my_free s a).memory_is_pointer = s.memory_is_pointer :=
  freeLoop_ip _ _ _

theorem my_free_buffer (s : Arena) (a : Nat) :
    (my_free s a).memory_buffer = s.memory_buffer :=
  freeLoop_buffer _ _ _

theorem my_free_cap (s : Arena) (a : Nat) : cap (my_free s a) = cap s :=
  freeLoop_length _ _ _

theorem my_free_usedAt (s : Arena) (a j : Nat) :
    usedAt (my_free s a) j =
      if a ≤ j ∧ j < a + usedRunLen s (cap s) a then false else usedAt s j := by
  unfold my_free
  exact freeLoop_spec (usedRunLen s (cap s) a) s a (cap s)
    (usedRunLen_le _ _ _)
    (usedRunLen_run _ _ _)
    (usedRunLen_stop _ _ _ (by omega))
    j

theorem my_free_usedAt_self (s : Arena) (a : Nat) :
    usedAt (my_free s a) a = false := by
  rw [my_free_usedAt]
  rcases Nat.eq_zero_or_pos (usedRunLen s (cap s) a) with hL | hL
  · rw [if_neg (by omega)]
    have hs := usedRunLen_stop (cap s) s a (by omega)
    rw [hL, Nat.add_zero] at hs
    rcases hs with hs | hs
    · exact usedAt_oob hs
    · exact hs
  · rw [if_pos (by omega)]

theorem my_free_noop (s : Arena) (a : Nat) (h : usedAt s a = false) :
    my_free s a = s := by
  unfold my_free
  cases hc : cap s with
  | zero => rfl
  | succ c =>
    rw [freeLoop, if_neg (by simp [h])]

/-! Lemmas about the pointer-tagging loop. -/

theorem tag_used (k : Nat) : ∀ (s : Arena) (off : Nat),
    (set_print_as_pointer s off k).memory_used = s.memory_used := by
  induction k with
  | zero => intro s off; rfl
  | succ k ih => intro s off; rw [set_print_as_pointer]; exact ih _ _

theorem tag_buffer (k : Nat) : ∀ (s : Arena) (off : Nat),
    (set_print_as_pointer s off k).memory_buffer = s.memory_buffer := by
  induction k with
  | zero => intro s off; rfl
  | succ k ih => intro s off; rw [set_print_as_pointer]; exact ih _ _

theorem tag_isPointerAt (k : Nat) : ∀ (s : Arena) (off j : Nat),
    isPointerAt (set_print_as_pointer s off k) j =
      if off ≤ j ∧ j < off + k ∧ j < s.memory_is_pointer.length then true
      else isPointerAt s j := by
  induction k with
  | zero =>
    intro s off j
    rw [set_print_as_pointer, if_neg (by omega)]
  | succ k ih =>
    intro s off j
    rw [set_print_as_pointer, ih]
    have hlen : ({ s with memory_is_pointer := s.memory_is_pointer.set off true } :
        Arena).memory_is_pointer.length = s.memory_is_pointer.length :=
      List.length_set _ _ _
    have hp : isPointerAt { s with
        memory_is_pointer := s.memory_is_pointer.set off true } j =
        if j = off ∧ off < s.memory_is_pointer.length then true else isPointerAt s j :=
      getD_set _ _ _ _ _
    rw [hlen, hp]
    split_ifs <;> first | rfl | omega

/-! Lemmas about initialization. -/

theorem init_usedAt (s : Arena) (f : Nat → Int) (j : Nat) :
    usedAt (init_my_malloc s f) j = false := by
  unfold usedAt init_my_malloc
  simp only [List.getD_eq_getElem?_getD, List.getElem?_replicate]
  split <;> rfl

theorem init_ip (s : Arena) (f : Nat → Int) :
    (init_my_malloc s f).memory_is_pointer = s.memory_is_pointer := rfl

/-! Concrete arenas used to instantiate the claim theorems. -/

/-- An arena of 6 slots, all free. -/
def arenaFree6 : Arena :=
  ⟨List.replicate 6 false, List.replicate 6 false, List.replicate 6 0⟩

/-- Result arena of my_malloc arenaFree6 0 8 (one slot marked at index 1). -/
def arenaAfter8 : Arena :=
  ⟨[false, true, false, false, false, false], List.replicate 6 false, List.replicate 6 0⟩

/-- Result arena of my_malloc arenaFree6 0 16 (two slots marked at indices 1, 2). -/
def arenaAfter16 : Arena :=
  ⟨[false, true, true, false, false, false], List.replicate 6 false, List.replicate 6 0⟩

/-- A fully used arena of 2 slots; any allocation exhausts. -/
def arenaFull2 : Arena := ⟨[true, true], [false, false], [0, 0]⟩

/-- An arena of 4 slots whose only free run is slots 2..3, ending exactly at
the last slot: a candidate position start = 2 has a free leading guard, a
free in-bounds payload slot 3, and its trailing guard (slot 4) out of
bounds. -/
def arenaC4 : Arena :=
  ⟨[true, true, false, false], [false, false, false, false], [0, 0, 0, 0]⟩

/-- Fixed stand-in for the double_rand stream. -/
def constRand : Nat → Int := fun _ => 7

/-- A freshly initialized 1-slot arena (used flag cleared by init). -/
def arenaInit1 : Arena := init_my_malloc ⟨[true], [false], [5]⟩ constRand

/-! Claim theorems. -/

/-- C1: for every requested size nbytes > 0 for which the placement search
succeeds, my_malloc computes n = ceil(nbytes/8) and returns a handle
h = start + 1 such that the n consecutive slots start+1 .. start+n were
free before the call and are marked used after it, with each of those
slots' pointer tags cleared; slot start (the leading guard) is left free
and unmodified, and no stored value changes. -/
theorem claim_C1 (s : Arena) (r nbytes h : Nat) (s2 : Arena)
    (hpos : 0 < nbytes)
    (hsucc : my_malloc s r nbytes = (some h, s2)) :
    ∃ start n, n = (nbytes + 7) / 8 ∧ h = start + 1 ∧
      (∀ i, 1 ≤ i → i ≤ n →
        usedAt s (start + i) = false ∧ usedAt s2 (start + i) = true ∧
        isPointerAt s2 (start + i) = false) ∧
      usedAt s start = false ∧ usedAt s2 start = false ∧
      isPointerAt s2 start = isPointerAt s start ∧
      s2.memory_buffer = s.memory_buffer := by
  obtain ⟨start, hlt, hfree, hfb, hh, hs2⟩ := my_malloc_success s r nbytes h s2 hsucc
  have hwin := (findBlocked_none_iff0 s start ((nbytes - 1) / 8 + 1 + 2)).mp hfb
  refine ⟨start, (nbytes - 1) / 8 + 1, by omega, hh, ?_, hfree, ?_, ?_, ?_⟩
  · intro i h1 h2
    have hw := hwin i (by omega)
    refine ⟨hw.2, ?_, ?_⟩
    · rw [hs2, markRange_usedAt, if_pos (by exact ⟨by omega, by omega, hw.1⟩)]
    · rw [hs2, markRange_isPointerAt]
      by_cases hip : start + i < s.memory_is_pointer.length
      · rw [if_pos ⟨by omega, by omega, hip⟩]
      · rw [if_neg (by omega)]
        exact isPointerAt_oob (by omega)
  · rw [hs2, markRange_usedAt, if_neg (by omega)]
    exact hfree
  · rw [hs2, markRange_isPointerAt, if_neg (by omega)]
  · rw [hs2]
    exact markRange_buffer _ _ _

/-- C1 witness: a concrete successful allocation of 8 bytes in a 6-slot
free arena at scan start 0 returns handle 1 and marks exactly slot 1. -/
theorem claim_C1_witness :
    0 < 8 ∧ my_malloc arenaFree6 0 8 = (some 1, arenaAfter8) ∧
    (∃ start n, n = (8 + 7) / 8 ∧ 1 = start + 1 ∧
      (∀ i, 1 ≤ i → i ≤ n →
        usedAt arenaFree6 (start + i) = false ∧ usedAt arenaAfter8 (start + i) = true ∧
        isPointerAt arenaAfter8 (start + i) = false) ∧
      usedAt arenaFree6 start = false ∧ usedAt arenaAfter8 start = false ∧
      isPointerAt arenaAfter8 start = isPointerAt arenaFree6 start ∧
      arenaAfter8.memory_buffer = arenaFree6.memory_buffer) :=
  ⟨by decide, by decide, claim_C1 arenaFree6 0 8 1 arenaAfter8 (by decide) (by decide)⟩

/-- C2: my_free on the handle of an immediately preceding successful
allocation restores exactly the n = (nbytes-1)/8+1 slots the allocation
marked (the forward used-run from the handle has length exactly n), the
resulting used flags equal the pre-allocation ones pointwise, and slots
outside the run keep their post-allocation flags; in general, my_free
clears the used flags of exactly the contiguous used run starting at the
handed address, stopping at the first free slot or the arena boundary. -/
theorem claim_C2 :
    (∀ (t : Arena) (a j : Nat),
      usedAt (my_free t a) j =
        if a ≤ j ∧ j < a + usedRunLen t (cap t) a then false else usedAt t j) ∧
    (∀ (s : Arena) (r nbytes h : Nat) (s2 : Arena),
      my_malloc s r nbytes = (some h, s2) →
      usedRunLen s2 (cap s2) h = (nbytes - 1) / 8 + 1 ∧
      (∀ j, usedAt (my_free s2 h) j = usedAt s j) ∧
      (∀ j, j < h ∨ h + ((nbytes - 1) / 8 + 1) ≤ j →
        usedAt (my_free s2 h) j = usedAt s2 j)) := by
  constructor
  · exact my_free_usedAt
  · intro s r nbytes h s2 hsucc
    obtain ⟨start, hlt, hfree, hfb, hh, hs2⟩ := my_malloc_success s r nbytes h s2 hsucc
    have hwin := (findBlocked_none_iff0 s start ((nbytes - 1) / 8 + 1 + 2)).mp hfb
    have hcap2 : cap s2 = cap s := by rw [hs2]; exact markRange_cap _ _ _
    have hrun : ∀ i, i < (nbytes - 1) / 8 + 1 →
        h + i < cap s2 ∧ usedAt s2 (h + i) = true := by
      intro i hi
      have hw := hwin (i + 1) (by omega)
      constructor
      · omega
      · rw [hs2, markRange_usedAt, if_pos ⟨by omega, by omega, by omega⟩]
    have hstop : cap s2 ≤ h + ((nbytes - 1) / 8 + 1) ∨
        usedAt s2 (h + ((nbytes - 1) / 8 + 1)) = false := by
      right
      have hw := hwin ((nbytes - 1) / 8 + 1 + 1) (by omega)
      rw [hs2, markRange_usedAt, if_neg (by omega), hh]
      have e : start + 1 + ((nbytes - 1) / 8 + 1) = start + ((nbytes - 1) / 8 + 1 + 1) := by
        omega
      rw [e]
      exact hw.2
    have hL : usedRunLen s2 (cap s2) h = (nbytes - 1) / 8 + 1 := by
      rcases usedRunLen_eq ((nbytes - 1) / 8 + 1) s2 h (cap s2) hrun hstop with he | he
      · exact he
      · exfalso
        have hw := hwin ((nbytes - 1) / 8 + 1 + 1) (by omega)
        omega
    refine ⟨hL, ?_, ?_⟩
    · intro j
      rw [my_free_usedAt, hL]
      split_ifs with hin
      · have hw := hwin (j - start) (by omega)
        have e : start + (j - start) = j := by omega
        rw [e] at hw
        exact hw.2.symm
      · rw [hs2, markRange_usedAt, if_neg (by omega)]
    · intro j hout
      rw [my_free_usedAt, hL, if_neg (by omega)]

/-- C2 witness: a concrete 16-byte allocation in a 6-slot free arena marks
slots 1..2, and my_free on the returned handle restores the original
state. -/
theorem claim_C2_witness :
    (usedAt (my_free arenaAfter16 1) 2 =
      if 1 ≤ 2 ∧ 2 < 1 + usedRunLen arenaAfter16 (cap arenaAfter16) 1 then false
      else usedAt arenaAfter16 2) ∧
    my_malloc arenaFree6 0 16 = (some 1, arenaAfter16) ∧
    (usedRunLen arenaAfter16 (cap arenaAfter16) 1 = (16 - 1) / 8 + 1 ∧
      (∀ j, usedAt (my_free arenaAfter16 1) j = usedAt arenaFree6 j) ∧
      (∀ j, j < 1 ∨ 1 + ((16 - 1) / 8 + 1) ≤ j →
        usedAt (my_free arenaAfter16 1) j = usedAt arenaAfter16 j)) :=
  ⟨claim_C2.1 arenaAfter16 1 2, by decide, claim_C2.2 arenaFree6 0 16 1 arenaAfter16 (by decide)⟩

/-- C3: when the placement search fails to find a fit (the out-of-memory
path, where the C code prints and exits), no state is mutated: the
returned arena is the input arena. -/
theorem claim_C3 (s : Arena) (r nbytes : Nat) (s2 : Arena)
    (hfail : my_malloc s r nbytes = (none, s2)) : s2 = s :=
  my_malloc_failure s r nbytes s2 hfail

/-- C3 witness: allocating in a fully used 2-slot arena exhausts and
returns the arena unchanged. -/
theorem claim_C3_witness :
    my_malloc arenaFull2 0 8 = (none, arenaFull2) ∧ arenaFull2 = arenaFull2 :=
  ⟨by decide, claim_C3 arenaFull2 0 8 arenaFull2 (by decide)⟩

/-- C4 counterexample: the claim asserts that a position whose trailing
slot start+n+1 is out of bounds is accepted; in arenaC4 position start = 2
has slot 2 free, the single payload slot 3 free and in-bounds (the last
slot), and trailing slot 4 out of bounds, so the claim predicts the
8-byte allocation at scan start 2 succeeds there — but the code's window
check rejects an out-of-bounds trailing slot, and the allocation exhausts
with the arena unchanged. -/
theorem claim_C4_cex :
    cap arenaC4 = 4 ∧ usedAt arenaC4 2 = false ∧ usedAt arenaC4 3 = false ∧
    my_malloc arenaC4 2 8 = (none, arenaC4) := by decide

/-- C4 (amended): the placement search accepts a position start exactly
when all n+2 slots start .. start+n+1 are in-bounds and free — the
trailing slot start+n+1 must be strictly within the arena, so a free run
ending exactly at the last slot is rejected; every successful allocation
was accepted under exactly this window condition. -/
theorem claim_C4 :
    (∀ (s : Arena) (start n : Nat),
      findBlocked s start 0 (n + 2) = none ↔
        ∀ i, i < n + 2 → start + i < cap s ∧ usedAt s (start + i) = false) ∧
    (∀ (s : Arena) (r nbytes h : Nat) (s2 : Arena),
      my_malloc s r nbytes = (some h, s2) →
      ∃ start, h = start + 1 ∧
        ∀ i, i < (nbytes - 1) / 8 + 1 + 2 →
          start + i < cap s ∧ usedAt s (start + i) = false) := by
  constructor
  · intro s start n
    exact findBlocked_none_iff0 s start (n + 2)
  · intro s r nbytes h s2 hsucc
    obtain ⟨start, hlt, hfree, hfb, hh, hs2⟩ := my_malloc_success s r nbytes h s2 hsucc
    exact ⟨start, hh, (findBlocked_none_iff0 s start _).mp hfb⟩

/-- C4 witness: the window condition instantiated on a concrete arena, and
a concrete successful allocation whose accepted window is fully in-bounds
and free. -/
theorem claim_C4_witness :
    (findBlocked arenaFree6 0 0 (1 + 2) = none ↔
      ∀ i, i < 1 + 2 → 0 + i < cap arenaFree6 ∧ usedAt arenaFree6 (0 + i) = false) ∧
    my_malloc arenaFree6 0 8 = (some 1, arenaAfter8) ∧
    (∃ start, 1 = start + 1 ∧
      ∀ i, i < (8 - 1) / 8 + 1 + 2 →
        start + i < cap arenaFree6 ∧ usedAt arenaFree6 (start + i) = false) :=
  ⟨claim_C4.1 arenaFree6 0 1, by decide, claim_C4.2 arenaFree6 0 8 1 arenaAfter8 (by decide)⟩

/-- C5: my_malloc never changes a used flag at an index outside the arena
bounds, and on success every newly marked index start+1 .. start+n lies
strictly below the capacity. -/
theorem claim_C5 :
    (∀ (s : Arena) (r nbytes j : Nat),
      usedAt (my_malloc s r nbytes).2 j ≠ usedAt s j → j < cap s) ∧
    (∀ (s : Arena) (r nbytes h : Nat) (s2 : Arena),
      my_malloc s r nbytes = (some h, s2) →
      ∃ start, h = start + 1 ∧
        ∀ i, 1 ≤ i → i ≤ (nbytes - 1) / 8 + 1 → start + i < cap s) := by
  constructor
  · intro s r nbytes j hne
    rcases hres : my_malloc s r nbytes with ⟨o, s2⟩
    rw [hres] at hne
    cases o with
    | none =>
      rw [my_malloc_failure s r nbytes s2 hres] at hne
      exact absurd rfl hne
    | some h =>
      obtain ⟨start, hlt, hfree, hfb, hh, hs2⟩ := my_malloc_success s r nbytes h s2 hres
      by_contra hj
      rw [hs2, markRange_usedAt, if_neg (by omega)] at hne
      exact absurd rfl hne
  · intro s r nbytes h s2 hsucc
    obtain ⟨start, hlt, hfree, hfb, hh, hs2⟩ := my_malloc_success s r nbytes h s2 hsucc
    have hwin := (findBlocked_none_iff0 s start ((nbytes - 1) / 8 + 1 + 2)).mp hfb
    refine ⟨start, hh, ?_⟩
    intro i h1 h2
    have hw := hwin i (by omega)
    exact hw.1

/-- C5 witness: a concrete allocation changes the flag of slot 1, which is
within the 6-slot bounds, and its marked range lies below the capacity. -/
theorem claim_C5_witness :
    ((usedAt (my_malloc arenaFree6 0 8).2 1 ≠ usedAt arenaFree6 1) ∧ 1 < cap arenaFree6) ∧
    my_malloc arenaFree6 0 16 = (some 1, arenaAfter16) ∧
    (∃ start, 1 = start + 1 ∧
      ∀ i, 1 ≤ i → i ≤ (16 - 1) / 8 + 1 → start + i < cap arenaFree6) :=
  ⟨⟨by decide, claim_C5.1 arenaFree6 0 8 1 (by decide)⟩, by decide,
    claim_C5.2 arenaFree6 0 16 1 arenaAfter16 (by decide)⟩

/-- C6 counterexample: the claim asserts no reachable sequence of init,
allocate, tag and release calls produces a slot with is_pointer true and
used false at the moment of tagging — but set_print_as_pointer performs no
used-check, so initializing a 1-slot arena and then tagging the (free)
slot 0 directly yields is_pointer true with used false immediately after
the tagging call. -/
theorem claim_C6_cex :
    usedAt (set_print_as_pointer arenaInit1 0 1) 0 = false ∧
    isPointerAt (set_print_as_pointer arenaInit1 0 1) 0 = true := by decide

/-- C6 (amended): set_print_as_pointer performs no validation, so the
moment-of-tagging invariant holds only under the documented precondition
that the tagged slots are currently used: tagging never changes any used
flag, and when every tagged slot is used beforehand (in a wellformed
arena), every tagged slot has used true and is_pointer true immediately
after the call; moreover my_malloc never sets a pointer tag to true,
my_free leaves all pointer tags unchanged, and init_my_malloc leaves all
pointer tags unchanged while clearing every used flag. -/
theorem claim_C6 :
    (∀ (s : Arena) (off k : Nat),
      (set_print_as_pointer s off k).memory_used = s.memory_used) ∧
    (∀ (s : Arena) (off k : Nat), s.WF →
      (∀ i, i < k → usedAt s (off + i) = true) →
      ∀ i, i < k →
        usedAt (set_print_as_pointer s off k) (off + i) = true ∧
        isPointerAt (set_print_as_pointer s off k) (off + i) = true) ∧
    (∀ (s : Arena) (r nbytes j : Nat),
      isPointerAt (my_malloc s r nbytes).2 j = true → isPointerAt s j = true) ∧
    (∀ (s : Arena) (a : Nat), (my_free s a).memory_is_pointer = s.memory_is_pointer) ∧
    (∀ (s : Arena) (f : Nat → Int),
      (init_my_malloc s f).memory_is_pointer = s.memory_is_pointer ∧
      ∀ j, usedAt (init_my_malloc s f) j = false) := by
  refine ⟨fun s off k => tag_used k s off, ?_, ?_, my_free_ip,
    fun s f => ⟨init_ip s f, init_usedAt s f⟩⟩
  · intro s off k hwf hused i hi
    have hu : usedAt (set_print_as_pointer s off k) (off + i) = usedAt s (off + i) := by
      unfold usedAt
      rw [tag_used]
    have husedi := hused i hi
    have hbound : off + i < cap s := by
      by_contra hb
      rw [usedAt_oob (by omega)] at husedi
      exact absurd husedi (by simp)
    have hiplen : off + i < s.memory_is_pointer.length := by
      have h1 := hwf.1
      unfold cap at hbound
      omega
    refine ⟨by rw [hu]; exact husedi, ?_⟩
    rw [tag_isPointerAt, if_pos ⟨by omega, by omega, hiplen⟩]
  · intro s r nbytes j hp
    rcases hres : my_malloc s r nbytes with ⟨o, s2⟩
    rw [hres] at hp
    cases o with
    | none => rwa [my_malloc_failure s r nbytes s2 hres] at hp
    | some h =>
      obtain ⟨start, hlt, hfree, hfb, hh, hs2⟩ := my_malloc_success s r nbytes h s2 hres
      rw [hs2, markRange_isPointerAt] at hp
      by_cases hc : start + 1 ≤ j ∧
          j < start + 1 + ((nbytes - 1) / 8 + 1) ∧ j < s.memory_is_pointer.length
      · rw [if_pos hc] at hp
        exact absurd hp (by simp)
      · rwa [if_neg hc] at hp

/-- C6 witness: tagging the two used slots of a concrete post-allocation
arena satisfies the precondition and yields used and pointer tags both
true on the tagged slots. -/
theorem claim_C6_witness :
    (set_print_as_pointer arenaAfter16 1 2).memory_used = arenaAfter16.memory_used ∧
    (arenaAfter16.WF ∧ (∀ i, i < 2 → usedAt arenaAfter16 (1 + i) = true) ∧
      ∀ i, i < 2 →
        usedAt (set_print_as_pointer arenaAfter16 1 2) (1 + i) = true ∧
        isPointerAt (set_print_as_pointer arenaAfter16 1 2) (1 + i) = true) :=
  ⟨claim_C6.1 arenaAfter16 1 2,
    by decide, by decide,
    claim_C6.2.1 arenaAfter16 1 2 (by decide) (by decide)⟩

/-- C7: the two printing routines are read-only and deterministic: each
returns the arena unchanged, and a second call on the state left by the
first produces the same output text. -/
theorem claim_C7 (s : Arena) :
    (print_memory_used s).2 = s ∧ (print_memory_value s).2 = s ∧
    (print_memory_used ((print_memory_used s).2)).1 = (print_memory_used s).1 ∧
    (print_memory_value ((print_memory_value s).2)).1 = (print_memory_value s).1 :=
  ⟨rfl, rfl, rfl, rfl⟩

/-- C8: the placement-search loop terminates within the arena capacity:
with fuel at least cap s - offset the loop always reaches a result (the
offset strictly increases each iteration), and my_malloc with fuel equal
to the capacity realizes that result — a handle or the exhaustion exit. -/
theorem claim_C8 :
    (∀ (s : Arena) (ss n fuel offset : Nat), cap s - offset ≤ fuel →
      (searchLoop s ss n fuel offset).isSome = true) ∧
    (∀ (s : Arena) (r nbytes : Nat),
      searchLoop s (r % cap s) ((nbytes - 1) / 8 + 1) (cap s) 0 =
        some (my_malloc s r nbytes)) :=
  ⟨fun s ss n fuel offset hf => searchLoop_isSome s ss n fuel offset hf,
    my_malloc_eq_searchLoop⟩

/-- C8 witness: on a concrete 6-slot arena the loop with fuel 6 from
offset 0 reaches a result, and my_malloc realizes it. -/
theorem claim_C8_witness :
    (cap arenaFree6 - 0 ≤ 6 ∧ (searchLoop arenaFree6 0 1 6 0).isSome = true) ∧
    searchLoop arenaFree6 (0 % cap arenaFree6) ((8 - 1) / 8 + 1) (cap arenaFree6) 0 =
      some (my_malloc arenaFree6 0 8) :=
  ⟨⟨by decide, claim_C8.1 arenaFree6 0 1 6 0 (by decide)⟩, claim_C8.2 arenaFree6 0 8⟩

/-- C9: my_free is idempotent: on a handle whose starting slot is already
free it is a no-op leaving the state unchanged, and releasing the same
handle twice yields the same state as releasing it once. -/
theorem claim_C9 :
    (∀ (s : Arena) (a : Nat), usedAt s a = false → my_free s a = s) ∧
    (∀ (s : Arena) (a : Nat), my_free (my_free s a) a = my_free s a) :=
  ⟨my_free_noop, fun s a => my_free_noop _ _ (my_free_usedAt_self s a)⟩

/-- C9 witness: releasing free slot 3 of a concrete arena is a no-op, and
double release of a concrete allocation equals single release. -/
theorem claim_C9_witness :
    (usedAt arenaFree6 3 = false ∧ my_free arenaFree6 3 = arenaFree6) ∧
    my_free (my_free arenaAfter16 1) 1 = my_free arenaAfter16 1 :=
  ⟨⟨by decide, claim_C9.1 arenaFree6 3 (by decide)⟩, claim_C9.2 arenaAfter16 1⟩

/-- C10: my_malloc never modifies any stored slot value, and on success it
changes the used and pointer flags of no slot outside the allocated run
start+1 .. start+n, so the garbage values placed by init persist until
the caller writes through the handle. -/
theorem claim_C10 :
    (∀ (s : Arena) (r nbytes : Nat),
      (my_malloc s r nbytes).2.memory_buffer = s.memory_buffer) ∧
    (∀ (s : Arena) (r nbytes h : Nat) (s2 : Arena),
      my_malloc s r nbytes = (some h, s2) →
      ∃ start, h = start + 1 ∧
        ∀ j, j < start + 1 ∨ start + ((nbytes - 1) / 8 + 1) < j →
          usedAt s2 j = usedAt s j ∧ isPointerAt s2 j = isPointerAt s j) := by
  constructor
  · intro s r nbytes
    rcases hres : my_malloc s r nbytes with ⟨o, s2⟩
    cases o with
    | none => rw [my_malloc_failure s r nbytes s2 hres]
    | some h =>
      obtain ⟨start, hlt, hfree, hfb, hh, hs2⟩ := my_malloc_success s r nbytes h s2 hres
      rw [hs2]
      exact markRange_buffer _ _ _
  · intro s r nbytes h s2 hsucc
    obtain ⟨start, hlt, hfree, hfb, hh, hs2⟩ := my_malloc_success s r nbytes h s2 hsucc
    refine ⟨start, hh, ?_⟩
    intro j hout
    constructor
    · rw [hs2, markRange_usedAt, if_neg (by omega)]
    · rw [hs2, markRange_isPointerAt, if_neg (by omega)]

/-- C10 witness: a concrete allocation leaves the stored values unchanged
and the flags of all slots outside the allocated run unchanged. -/
theorem claim_C10_witness :
    (my_malloc arenaFree6 0 8).2.memory_buffer = arenaFree6.memory_buffer ∧
    my_malloc arenaFree6 0 16 = (some 1, arenaAfter16) ∧
    (∃ start, 1 = start + 1 ∧
      ∀ j, j < start + 1 ∨ start + ((16 - 1) / 8 + 1) < j →
        usedAt arenaAfter16 j = usedAt arenaFree6 j ∧
        isPointerAt arenaAfter16 j = isPointerAt arenaFree6 j) :=
  ⟨claim_C10.1 arenaFree6 0 8, by decide,
    claim_C10.2 arenaFree6 0 16 1 arenaAfter16 (by decide)⟩

end MyMalloc
